import Mathlib

/-!
Verification development for the script `Bleu Score/Bleu_rouge_scores.py`.

The script defines one function, `Evaluate_text(pred, target_ref)`, which
joins each of its two arguments into a space-separated string of the
Python `str` images of the elements, calls a
ROUGE scorer on the joined strings, calls a BLEU scorer on the raw
arguments, prints both scores and returns them as a pair.  The module then
runs one hardcoded evaluation and terminates.

Python values reaching the function are strings and (nested) lists of
strings, so they are embedded as the inductive `PyVal`.  The two external
scoring libraries are not part of the repository; they are modelled from
the specification of the metrics (BLEU: clipped n-gram precision with a
brevity penalty, corpus level, n = 1..4; ROUGE: overlap based
precision/recall/F1 at unigram, bigram and longest-common-subsequence
granularity, failing on empty input).  Everything the script itself does
(string joining, call order, printing, the return value, the hardcoded
input) is embedded directly from the source.
-/

namespace BleuRouge

/-- The single-quote character (used by the Python `str`/`repr` of a list). -/
def sq : String := ⟨[Char.ofNat 39]⟩

/-- A Python value as used by this script: a string, or a list of values. -/
inductive PyVal where
  | str : String → PyVal
  | list : List PyVal → PyVal

mutual

/-- Python `repr` of a value: strings get single quotes, lists get
brackets with comma-separated `repr`s of the elements. -/
def pyRepr : PyVal → String
  | .str s => sq ++ s ++ sq
  | .list xs => "[" ++ pyReprList xs ++ "]"

/-- Comma-separated list of `repr`s, as produced inside a Python list `repr`. -/
def pyReprList : List PyVal → String
  | [] => ""
  | [x] => pyRepr x
  | x :: y :: xs => pyRepr x ++ ", " ++ pyReprList (y :: xs)

end

/-- Python `str` of a value: the string itself for a string, the `repr`
for a list (Python has no separate `str` for lists). -/
def pyStr : PyVal → String
  | .str s => s
  | .list xs => pyRepr (.list xs)

/-- Python space-join of the `str` images of the elements, as on lines 7-8
of the source. -/
def joinMapStr (xs : List PyVal) : String :=
  String.intercalate (" ") (xs.map pyStr)

/-- Split a character list at whitespace; empty groups are kept here and
dropped by `pySplit`, matching Python `str.split()`. -/
def splitChars : List Char → List (List Char)
  | [] => [[]]
  | c :: cs =>
    match splitChars cs with
    | [] => [[]]
    | r :: rs => if c.isWhitespace then [] :: r :: rs else (c :: r) :: rs

/-- Python `str.split()`: split on whitespace runs, dropping empty pieces. -/
def pySplit (s : String) : List String :=
  ((splitChars s.data).filter (fun l => !l.isEmpty)).map (fun cs => String.mk cs)

/-- Python iteration over a value: a list yields its elements, a string
yields its characters as one-character strings. -/
def pyIter : PyVal → List PyVal
  | .list xs => xs
  | .str s => s.data.map (fun c => PyVal.str (String.mk [c]))

/-- The contiguous `n`-grams of a token list. -/
def ngrams (n : ℕ) (ws : List String) : List (List String) :=
  if ws.length < n then []
  else (List.range (ws.length - n + 1)).map (fun i => ((ws.drop i).take n))

/-- Modelled from the spec: the BLEU scorer counts each distinct `n`-gram of
the prediction at most as often as it appears in some single reference
("clipped" counts); this is the per-`n`-gram clip bound. -/
def maxRefCount (n : ℕ) (refs : List (List String)) (g : List String) : ℕ :=
  (refs.map (fun r => (ngrams n r).count g)).foldr max 0

/-- Modelled from the spec: clipped `n`-gram match count of one prediction
sentence against its references. -/
def clippedCount (n : ℕ) (predToks : List String) (refs : List (List String)) : ℕ :=
  (((ngrams n predToks).dedup).map
    (fun g => min ((ngrams n predToks).count g) (maxRefCount n refs g))).sum

/-- Total number of `n`-grams of one prediction sentence. -/
def totalCount (n : ℕ) (predToks : List String) : ℕ :=
  (ngrams n predToks).length

/-- Tokens of a Python value, as the BLEU scorer sees it (whitespace split). -/
def tokensOfVal (v : PyVal) : List String := pySplit (pyStr v)

/-- The (prediction tokens, reference token lists) pairs the BLEU scorer
iterates over: `zip(preds, target)` with whitespace tokenization. -/
def sentPairs (pred target_ref : List PyVal) : List (List String × List (List String)) :=
  (pred.zip target_ref).map (fun pt => (tokensOfVal pt.1, (pyIter pt.2).map tokensOfVal))

/-- Corpus-level clipped `n`-gram numerator. -/
def numeratorN (n : ℕ) (pairs : List (List String × List (List String))) : ℕ :=
  (pairs.map (fun pr => clippedCount n pr.1 pr.2)).sum

/-- Corpus-level `n`-gram denominator. -/
def denominatorN (n : ℕ) (pairs : List (List String × List (List String))) : ℕ :=
  (pairs.map (fun pr => totalCount n pr.1)).sum

/-- Total prediction length (in tokens) over the corpus. -/
def predLenOf (pairs : List (List String × List (List String))) : ℕ :=
  (pairs.map (fun pr => pr.1.length)).sum

/-- Distance between two naturals. -/
def natDist (a b : ℕ) : ℕ := max a b - min a b

/-- Modelled from the spec: for the brevity penalty the BLEU scorer uses,
per sentence, the reference length closest to the prediction length (first
such reference on ties). -/
def closestRefLen (pl : ℕ) : List ℕ → ℕ
  | [] => 0
  | x :: xs => xs.foldl (fun best y => if natDist y pl < natDist best pl then y else best) x

/-- Total closest-reference length over the corpus. -/
def refLenOf (pairs : List (List String × List (List String))) : ℕ :=
  (pairs.map (fun pr => closestRefLen pr.1.length (pr.2.map List.length))).sum

/-- The four clipped numerators (n = 1..4) of the BLEU computation. -/
def bleuNums (pred target_ref : List PyVal) : List ℕ :=
  (List.range 4).map (fun k => numeratorN (k + 1) (sentPairs pred target_ref))

/-- The four modified `n`-gram precisions (n = 1..4) of the BLEU computation. -/
def bleuPrecs (pred target_ref : List PyVal) : List ℚ :=
  (List.range 4).map (fun k =>
    ((numeratorN (k + 1) (sentPairs pred target_ref) : ℚ) /
      (denominatorN (k + 1) (sentPairs pred target_ref) : ℚ)))

/-- Modelled from the spec: the brevity penalty of the BLEU score, `1` when
the prediction is longer than the (closest) reference and
`exp(1 - refLen/predLen)` otherwise. -/
noncomputable def brevity (pred target_ref : List PyVal) : ℝ :=
  if refLenOf (sentPairs pred target_ref) < predLenOf (sentPairs pred target_ref) then 1
  else Real.exp (1 - (refLenOf (sentPairs pred target_ref) : ℝ) /
    (predLenOf (sentPairs pred target_ref) : ℝ))

/-- Modelled from the spec: the BLEU score returned by the scorer the script
calls on `(pred, target_ref)` — `0` when some clipped numerator is zero,
otherwise the brevity penalty times the geometric mean of the four
modified precisions. -/
noncomputable def bleuScore (pred target_ref : List PyVal) : ℝ :=
  if (bleuNums pred target_ref).any (fun k => k == 0) then 0
  else brevity pred target_ref *
    ((bleuPrecs pred target_ref).map (Rat.cast : ℚ → ℝ)).prod ^ ((1 : ℝ) / 4)

/-- One precision/recall/F1 entry of a ROUGE result. -/
structure RougeStat where
  f : ℚ
  p : ℚ
  r : ℚ
deriving DecidableEq

/-- One ROUGE result: unigram, bigram and LCS granularity. -/
structure RougeScores where
  rouge1 : RougeStat
  rouge2 : RougeStat
  rougeL : RougeStat
deriving DecidableEq

/-- Number of distinct `n`-grams of `hyp` that also occur in `ref`. -/
def overlapCount (n : ℕ) (hyp ref : List String) : ℕ :=
  (((ngrams n hyp).dedup).filter (fun g => g ∈ (ngrams n ref).dedup)).length

/-- Harmonic-mean F1 of a precision and a recall (rational arithmetic, with
the convention that a zero denominator yields zero, the limit value). -/
def f1Of (p r : ℚ) : ℚ := 2 * p * r / (p + r)

/-- Modelled from the spec: ROUGE-n — precision, recall and F1 of the
distinct-`n`-gram overlap between hypothesis and reference. -/
def rougeN (n : ℕ) (hyp ref : List String) : RougeStat :=
  ⟨f1Of ((overlapCount n hyp ref : ℚ) / (((ngrams n hyp).dedup).length : ℚ))
      ((overlapCount n hyp ref : ℚ) / (((ngrams n ref).dedup).length : ℚ)),
    (overlapCount n hyp ref : ℚ) / (((ngrams n hyp).dedup).length : ℚ),
    (overlapCount n hyp ref : ℚ) / (((ngrams n ref).dedup).length : ℚ)⟩

/-- One row update of the longest-common-subsequence dynamic program. -/
def lcsStep (x : String) : List String → List ℕ → ℕ → List ℕ
  | [], _, _ => []
  | _ :: _, [], _ => []
  | y :: ys, pj :: rest, cur =>
    let v := if x == y then pj + 1 else max cur (rest.headD 0)
    v :: lcsStep x ys rest v

/-- Length of the longest common subsequence of two token lists. -/
def lcsLen (xs ys : List String) : ℕ :=
  (xs.foldl (fun prev x => 0 :: lcsStep x ys prev 0)
    (List.replicate (ys.length + 1) 0)).getLastD 0

/-- Modelled from the spec: ROUGE-L — precision, recall and F1 derived from
the longest common subsequence of hypothesis and reference. -/
def rougeLstat (hyp ref : List String) : RougeStat :=
  ⟨f1Of ((lcsLen hyp ref : ℚ) / (hyp.length : ℚ))
      ((lcsLen hyp ref : ℚ) / (ref.length : ℚ)),
    (lcsLen hyp ref : ℚ) / (hyp.length : ℚ),
    (lcsLen hyp ref : ℚ) / (ref.length : ℚ)⟩

/-- Modelled from the spec: the ROUGE scorer the script calls on the two
joined strings.  It fails on an empty hypothesis or reference (the metric
library raises on empty input) and otherwise returns the singleton list of
score structures the library produces for one hypothesis/reference pair. -/
def rougeGetScores (hyp ref : String) : Except String (List RougeScores) :=
  if (pySplit hyp).isEmpty || (pySplit ref).isEmpty then
    .error ("Collections must contain at least 1 sentence.")
  else
    .ok [⟨rougeN 1 (pySplit hyp) (pySplit ref),
          rougeN 2 (pySplit hyp) (pySplit ref),
          rougeLstat (pySplit hyp) (pySplit ref)⟩]

/-- A line written to standard output by `Evaluate_text`. -/
inductive OutputLine where
  | bleuLine : ℝ → OutputLine
  | rougeLabel : OutputLine
  | rougeValue : List RougeScores → OutputLine

/-- An observable action of `Evaluate_text`, in execution order: the ROUGE
scorer call, the BLEU scorer call, and each print. -/
inductive Event where
  | rougeCall : String → String → Event
  | bleuCall : List PyVal → List PyVal → Event
  | printOut : OutputLine → Event

/-- Lines 4-14 of the source: join both arguments into space-joined strings,
call the ROUGE scorer on the joined strings, call the BLEU scorer on the raw
arguments, print the BLEU score, print the ROUGE label, print the ROUGE
scores, and return the pair `(bleu_score, rouge_score)`.  A failure of the
ROUGE call propagates (the function has no handler), so no later action
happens.  The second component records the actions in order. -/
noncomputable def Evaluate_text (pred target_ref : List PyVal) :
    Except String (ℝ × List RougeScores) × List Event :=
  let str_pred := joinMapStr pred
  let str_target := joinMapStr target_ref
  match rougeGetScores str_pred str_target with
  | .error e => (.error e, [.rougeCall str_pred str_target])
  | .ok rouge_score =>
    let bleu_score := bleuScore pred target_ref
    (.ok (bleu_score, rouge_score),
      [.rougeCall str_pred str_target, .bleuCall pred target_ref,
        .printOut (.bleuLine bleu_score), .printOut .rougeLabel,
        .printOut (.rougeValue rouge_score)])

/-- Line 15 of the source: the hardcoded prediction list with its single
sentence. -/
def preds : List PyVal := [.str ("the cat is on the mat")]

/-- Line 16 of the source: the hardcoded reference collection — one list
holding the two alternative reference sentences. -/
def target : List PyVal :=
  [.list [.str ("there is a cat on the mat"), .str ("a cat is on the mat")]]

/-- The lines `Evaluate_text` writes to standard output, in order. -/
def outputLines (evts : List Event) : List OutputLine :=
  evts.filterMap (fun e => match e with
    | .printOut l => some l
    | _ => none)

/-- The labels of the printed sections, in print order: the BLEU line is
labelled `"Bleu score : "` (line 11 of the source), the ROUGE section is
opened by the label line `"Rouge score : "` (line 12); the ROUGE value line
(line 13) carries no label of its own. -/
def sectionLabels (ls : List OutputLine) : List String :=
  ls.filterMap (fun l => match l with
    | .bleuLine _ => some ("Bleu score : ")
    | .rougeLabel => some ("Rouge score : ")
    | .rougeValue _ => none)

/-- A top-level statement of the script. -/
inductive TopStmt where
  | importMod : String → TopStmt
  | defineFun : String → TopStmt
  | assign : String → PyVal → TopStmt
  | callEvaluate : String → String → TopStmt

/-- The whole module, top to bottom: three imports (lines 1-3), the function
definition (lines 4-14), two assignments (lines 15-16) and the single
evaluation call (line 17). -/
def script : List TopStmt :=
  [.importMod ("numpy"), .importMod ("torchmetrics.text"), .importMod ("rouge"),
    .defineFun ("Evaluate_text"),
    .assign ("preds") (.list preds),
    .assign ("target") (.list target),
    .callEvaluate ("preds") ("target")]

/-- Number of evaluation calls a statement list performs. -/
def evalCallCount (s : List TopStmt) : ℕ :=
  s.countP (fun st => match st with
    | .callEvaluate _ _ => true
    | _ => false)

/-- Run the script top to bottom once: imports and the function definition
have no observable effect, assignments extend the environment, and an
evaluation call looks its two variables up and appends the actions of
`Evaluate_text` to the trace.  The function is structurally recursive, so a
run always terminates provided each evaluation call does (in this model
every call does). -/
noncomputable def runScript :
    List TopStmt → List (String × PyVal) → List Event → List (String × PyVal) × List Event
  | [], env, tr => (env, tr)
  | .importMod _ :: rest, env, tr => runScript rest env tr
  | .defineFun _ :: rest, env, tr => runScript rest env tr
  | .assign n v :: rest, env, tr => runScript rest ((n, v) :: env) tr
  | .callEvaluate pv tv :: rest, env, tr =>
    runScript rest env
      (tr ++ (Evaluate_text (pyIter ((env.lookup pv).getD (.list [])))
        (pyIter ((env.lookup tv).getD (.list [])))).2)

/-- The prediction of the identical-prediction/single-reference experiment. -/
def predsSame : List PyVal := [.str ("the cat is on the mat")]

/-- The reference collection holding one reference equal to the prediction. -/
def targetSame : List PyVal := [.list [.str ("the cat is on the mat")]]

/-! Helper lemmas about the embedded function. -/

/-- When the ROUGE call succeeds, `Evaluate_text` runs to the end: it calls
ROUGE, then BLEU, prints the three lines and returns the pair. -/
theorem Evaluate_text_ok (pred target_ref : List PyVal) (rs : List RougeScores)
    (h : rougeGetScores (joinMapStr pred) (joinMapStr target_ref) = .ok rs) :
    Evaluate_text pred target_ref =
      (.ok (bleuScore pred target_ref, rs),
        [.rougeCall (joinMapStr pred) (joinMapStr target_ref), .bleuCall pred target_ref,
          .printOut (.bleuLine (bleuScore pred target_ref)), .printOut .rougeLabel,
          .printOut (.rougeValue rs)]) := by
  simp only [Evaluate_text, h]

/-- When the ROUGE call fails, `Evaluate_text` propagates the error after
the single ROUGE action. -/
theorem Evaluate_text_err (pred target_ref : List PyVal) (e : String)
    (h : rougeGetScores (joinMapStr pred) (joinMapStr target_ref) = .error e) :
    Evaluate_text pred target_ref =
      (.error e, [.rougeCall (joinMapStr pred) (joinMapStr target_ref)]) := by
  simp only [Evaluate_text, h]

/-! Lemmas about n-gram counting, used to bound the BLEU score. -/

/-- The 1-grams of a token list are its tokens, each wrapped in a
singleton list. -/
theorem ngrams_one (l : List String) : ngrams 1 l = l.map (fun t => [t]) := by
  unfold ngrams
  cases l with
  | nil => simp
  | cons a as =>
    rw [if_neg (by simp)]
    apply List.ext_getElem
    · simp
    · intro i h1 h2
      simp only [List.getElem_map, List.getElem_range]
      rw [List.drop_eq_getElem_cons (by simpa using h2)]
      simp

/-- Counting with the `BEq` instance of `List String` agrees with counting
with the instance the `dedup` lemmas are stated with (both are lawful). -/
theorem count_congr_beq (g : List String) (l : List (List String)) :
    l.count g = @List.count _ (instBEqOfDecidableEq : BEq (List String)) g l := by
  rw [lawful_beq_subsingleton (instBEqOfDecidableEq : BEq (List String)) List.instBEq]

/-- A fold of `max` over an all-zero list is zero. -/
theorem foldr_max_zero (l : List ℕ) (h : ∀ x ∈ l, x = 0) : l.foldr max 0 = 0 := by
  induction l with
  | nil => rfl
  | cons a as ih =>
    simp only [List.mem_cons, forall_eq_or_imp] at h
    simp [h.1, ih h.2]

/-- Clipped counts never exceed the raw n-gram count. -/
theorem clippedCount_le_totalCount (n : ℕ) (tp : List String) (refs : List (List String)) :
    clippedCount n tp refs ≤ totalCount n tp := by
  unfold clippedCount totalCount
  calc (((ngrams n tp).dedup).map
        (fun g => min ((ngrams n tp).count g) (maxRefCount n refs g))).sum
      ≤ (((ngrams n tp).dedup).map (fun g => (ngrams n tp).count g)).sum :=
        List.sum_le_sum (fun g _ => min_le_left _ _)
    _ = (((ngrams n tp).dedup).map
          (fun g => @List.count _ (instBEqOfDecidableEq : BEq (List String)) g (ngrams n tp))).sum := by
        simp only [count_congr_beq]
    _ = (ngrams n tp).length := List.sum_map_count_dedup_eq_length _

/-- Corpus-level numerators never exceed the corresponding denominators. -/
theorem numeratorN_le_denominatorN (n : ℕ)
    (pairs : List (List String × List (List String))) :
    numeratorN n pairs ≤ denominatorN n pairs := by
  unfold numeratorN denominatorN
  exact List.sum_le_sum (fun pr _ => clippedCount_le_totalCount n pr.1 pr.2)

/-- A token list has as many 1-grams as tokens. -/
theorem totalCount_one (l : List String) : totalCount 1 l = l.length := by
  unfold totalCount
  rw [ngrams_one]
  simp

/-- The unigram denominator is the total prediction length. -/
theorem denominatorN_one (pairs : List (List String × List (List String))) :
    denominatorN 1 pairs = predLenOf pairs := by
  unfold denominatorN predLenOf
  simp only [totalCount_one]

/-- A nonzero unigram numerator forces a nonempty prediction. -/
theorem predLenOf_pos (pairs : List (List String × List (List String)))
    (h : numeratorN 1 pairs ≠ 0) : 0 < predLenOf pairs := by
  have h1 := numeratorN_le_denominatorN 1 pairs
  rw [denominatorN_one] at h1
  omega

/-- Each modified precision is nonnegative and at most one. -/
theorem bleuPrecs_mem (pred target_ref : List PyVal) (q : ℚ)
    (hq : q ∈ bleuPrecs pred target_ref) : 0 ≤ q ∧ q ≤ 1 := by
  unfold bleuPrecs at hq
  obtain ⟨k, _, rfl⟩ := List.mem_map.mp hq
  constructor
  · positivity
  · rcases Nat.eq_zero_or_pos (denominatorN (k + 1) (sentPairs pred target_ref)) with h0 | h0
    · have : numeratorN (k + 1) (sentPairs pred target_ref) = 0 := by
        have := numeratorN_le_denominatorN (k + 1) (sentPairs pred target_ref)
        omega
      simp [this]
    · rw [div_le_one (by exact_mod_cast h0)]
      exact_mod_cast numeratorN_le_denominatorN (k + 1) (sentPairs pred target_ref)

/-- A list of nonnegative reals has nonnegative product. -/
theorem listProdNonneg (l : List ℝ) (h : ∀ x ∈ l, 0 ≤ x) : 0 ≤ l.prod := by
  induction l with
  | nil => simp
  | cons a as ih =>
    simp only [List.mem_cons, forall_eq_or_imp] at h
    rw [List.prod_cons]
    exact mul_nonneg h.1 (ih h.2)

/-- A list of reals in the unit interval has product at most one. -/
theorem listProdLeOne (l : List ℝ) (h : ∀ x ∈ l, 0 ≤ x ∧ x ≤ 1) : l.prod ≤ 1 := by
  induction l with
  | nil => simp
  | cons a as ih =>
    simp only [List.mem_cons, forall_eq_or_imp] at h
    rw [List.prod_cons]
    exact mul_le_one₀ h.1.2 (listProdNonneg as (fun x hx => (h.2 x hx).1)) (ih h.2)

/-- The brevity penalty is nonnegative. -/
theorem brevity_nonneg (pred target_ref : List PyVal) : 0 ≤ brevity pred target_ref := by
  unfold brevity
  split
  · norm_num
  · exact (Real.exp_pos _).le

/-- The brevity penalty is at most one whenever the prediction is nonempty. -/
theorem brevity_le_one (pred target_ref : List PyVal)
    (h : 0 < predLenOf (sentPairs pred target_ref)) : brevity pred target_ref ≤ 1 := by
  unfold brevity
  split
  · exact le_rfl
  · rename_i hlt
    have hple : (predLenOf (sentPairs pred target_ref) : ℝ) ≤
        (refLenOf (sentPairs pred target_ref) : ℝ) := by
      exact_mod_cast Nat.le_of_not_lt hlt
    have hp0 : (0 : ℝ) < (predLenOf (sentPairs pred target_ref) : ℝ) := by exact_mod_cast h
    have h1 : (1 : ℝ) ≤ (refLenOf (sentPairs pred target_ref) : ℝ) /
        (predLenOf (sentPairs pred target_ref) : ℝ) := (one_le_div hp0).mpr hple
    calc Real.exp (1 - (refLenOf (sentPairs pred target_ref) : ℝ) /
          (predLenOf (sentPairs pred target_ref) : ℝ))
        ≤ Real.exp 0 := Real.exp_le_exp.mpr (by linarith)
      _ = 1 := Real.exp_zero

/-- The BLEU score is nonnegative. -/
theorem bleuScore_nonneg (pred target_ref : List PyVal) : 0 ≤ bleuScore pred target_ref := by
  unfold bleuScore
  split
  · exact le_rfl
  · refine mul_nonneg (brevity_nonneg pred target_ref) (Real.rpow_nonneg ?_ _)
    refine listProdNonneg _ (fun x hx => ?_)
    obtain ⟨q, hq, rfl⟩ := List.mem_map.mp hx
    exact_mod_cast (bleuPrecs_mem pred target_ref q hq).1

/-- The BLEU score is at most one. -/
theorem bleuScore_le_one (pred target_ref : List PyVal) : bleuScore pred target_ref ≤ 1 := by
  unfold bleuScore
  split
  · norm_num
  · rename_i hany
    have hne : ∀ x ∈ bleuNums pred target_ref, x ≠ 0 := by
      intro x hx
      have := (List.any_eq_false.mp (Bool.of_not_eq_true hany)) x hx
      simpa using this
    have hnum1 : numeratorN 1 (sentPairs pred target_ref) ≠ 0 := by
      refine hne _ ?_
      unfold bleuNums
      exact List.mem_map.mpr ⟨0, by simp, rfl⟩
    have hprod : ((bleuPrecs pred target_ref).map (Rat.cast : ℚ → ℝ)).prod ≤ 1 := by
      refine listProdLeOne _ (fun x hx => ?_)
      obtain ⟨q, hq, rfl⟩ := List.mem_map.mp hx
      have := bleuPrecs_mem pred target_ref q hq
      exact ⟨by exact_mod_cast this.1, by exact_mod_cast this.2⟩
    have hprod0 : 0 ≤ ((bleuPrecs pred target_ref).map (Rat.cast : ℚ → ℝ)).prod := by
      refine listProdNonneg _ (fun x hx => ?_)
      obtain ⟨q, hq, rfl⟩ := List.mem_map.mp hx
      exact_mod_cast (bleuPrecs_mem pred target_ref q hq).1
    exact mul_le_one₀ (brevity_le_one pred target_ref (predLenOf_pos _ hnum1))
      (Real.rpow_nonneg hprod0 _) (Real.rpow_le_one hprod0 hprod (by norm_num))

/-! Helper lemmas for evaluating the ROUGE model at concrete inputs. -/

/-- On nonempty inputs the ROUGE call returns the three-granularity record. -/
theorem rougeGetScores_ok_form (hyp ref : String)
    (h : ((pySplit hyp).isEmpty || (pySplit ref).isEmpty) = false) :
    rougeGetScores hyp ref =
      .ok [⟨rougeN 1 (pySplit hyp) (pySplit ref), rougeN 2 (pySplit hyp) (pySplit ref),
        rougeLstat (pySplit hyp) (pySplit ref)⟩] := by
  unfold rougeGetScores
  rw [if_neg (by simp [h])]

/-- Evaluation rule for `rougeN` given its three integer ingredients. -/
theorem rougeN_eval (n : ℕ) (hyp ref : List String) (o e r0 : ℕ)
    (ho : overlapCount n hyp ref = o)
    (he : ((ngrams n hyp).dedup).length = e)
    (hr : ((ngrams n ref).dedup).length = r0) :
    rougeN n hyp ref = ⟨f1Of ((o : ℚ) / (e : ℚ)) ((o : ℚ) / (r0 : ℚ)),
      (o : ℚ) / (e : ℚ), (o : ℚ) / (r0 : ℚ)⟩ := by
  subst ho he hr
  rfl

/-- Evaluation rule for `rougeLstat` given its three integer ingredients. -/
theorem rougeL_eval (hyp ref : List String) (o m n0 : ℕ)
    (ho : lcsLen hyp ref = o) (hm : hyp.length = m) (hn : ref.length = n0) :
    rougeLstat hyp ref = ⟨f1Of ((o : ℚ) / (m : ℚ)) ((o : ℚ) / (n0 : ℚ)),
      (o : ℚ) / (m : ℚ), (o : ℚ) / (n0 : ℚ)⟩ := by
  subst ho hm hn
  rfl

/-! The claims. -/

/-- C1.  The string the script hands to the ROUGE scorer on the reference
side is NOT the space-join of the reference texts: because line 8 joins
`str` of each element of the reference collection and the single element
of the collection is itself a list, the scorer receives the Python repr of that
list, brackets and quotes included.  First conjunct: the recorded ROUGE
call of the hardcoded run carries exactly the repr string.  Second
conjunct: that joined string differs from the space-join of the two
reference texts, refuting the claim as stated. -/
theorem C1_rouge_reference_is_repr :
    (Evaluate_text preds target).2.head? =
      some (.rougeCall ("the cat is on the mat")
        ("[" ++ sq ++ "there is a cat on the mat" ++ sq ++ ", " ++ sq ++
          "a cat is on the mat" ++ sq ++ "]")) ∧
    joinMapStr target ≠ String.intercalate (" ")
      [("there is a cat on the mat"), ("a cat is on the mat")] := by
  constructor
  · rfl
  · decide

/-- C3.  For the hardcoded prediction and references, the call succeeds and
returns the BLEU score first together with the ROUGE structure, whose
unigram entry carries F1 `4/7`, precision `4/5` and recall `4/9`; and the
BLEU score is a scalar in the closed interval `[0, 1]`. -/
theorem C3_hardcoded_run_in_range :
    (Evaluate_text preds target).1 =
      Except.ok (bleuScore preds target,
        [⟨⟨4/7, 4/5, 4/9⟩, ⟨3/8, 3/5, 3/11⟩, ⟨10/19, 5/6, 5/13⟩⟩]) ∧
    0 ≤ bleuScore preds target ∧ bleuScore preds target ≤ 1 := by
  refine ⟨?_, bleuScore_nonneg _ _, bleuScore_le_one _ _⟩
  have h := rougeGetScores_ok_form (joinMapStr preds) (joinMapStr target) (by decide)
  rw [rougeN_eval 1 _ _ 4 5 9 (by decide) (by decide) (by decide),
    rougeN_eval 2 _ _ 3 5 11 (by decide) (by decide) (by decide),
    rougeL_eval _ _ 5 6 13 (by decide) (by decide) (by decide)] at h
  have h1 : f1Of ((4 : ℚ) / 5) ((4 : ℚ) / 9) = 4/7 := by unfold f1Of; norm_num
  have h2 : f1Of ((3 : ℚ) / 5) ((3 : ℚ) / 11) = 3/8 := by unfold f1Of; norm_num
  have h3 : f1Of ((5 : ℚ) / 6) ((5 : ℚ) / 13) = 10/19 := by unfold f1Of; norm_num
  rw [Evaluate_text_ok preds target _ h]
  push_cast
  rw [h1, h2, h3]

/-- C5.  An empty prediction (empty token sequence once joined) makes the
ROUGE library call fail; `Evaluate_text` defines no error path, so the
error propagates out of the call and nothing is printed. -/
theorem C5_empty_prediction_fails (pred target_ref : List PyVal)
    (h : pySplit (joinMapStr pred) = []) :
    (Evaluate_text pred target_ref).1 =
      .error ("Collections must contain at least 1 sentence.") ∧
    outputLines (Evaluate_text pred target_ref).2 = [] := by
  have he : rougeGetScores (joinMapStr pred) (joinMapStr target_ref) =
      .error ("Collections must contain at least 1 sentence.") := by
    unfold rougeGetScores
    rw [if_pos (by simp [h])]
  rw [Evaluate_text_err _ _ _ he]
  exact ⟨rfl, rfl⟩

/-- Witness for C5 at a prediction holding one empty string. -/
theorem C5_empty_prediction_fails_w :
    pySplit (joinMapStr [PyVal.str ("")]) = [] ∧
    (Evaluate_text [PyVal.str ("")] [PyVal.list []]).1 =
      .error ("Collections must contain at least 1 sentence.") :=
  ⟨by decide, (C5_empty_prediction_fails [PyVal.str ("")] [PyVal.list []] (by decide)).1⟩

/-- C6.  Every successful call prints exactly two labelled sections, the
BLEU one first and the ROUGE one second. -/
theorem C6_two_labeled_sections (pred target_ref : List PyVal)
    (h : (rougeGetScores (joinMapStr pred) (joinMapStr target_ref)).isOk = true) :
    sectionLabels (outputLines (Evaluate_text pred target_ref).2) =
      [("Bleu score : "), ("Rouge score : ")] := by
  cases hE : rougeGetScores (joinMapStr pred) (joinMapStr target_ref) with
  | error e => rw [hE] at h; simp [Except.isOk, Except.toBool] at h
  | ok rs => rw [Evaluate_text_ok _ _ _ hE]; rfl

/-- Witness for C6 at the hardcoded input. -/
theorem C6_two_labeled_sections_w :
    (rougeGetScores (joinMapStr preds) (joinMapStr target)).isOk = true ∧
    sectionLabels (outputLines (Evaluate_text preds target).2) =
      [("Bleu score : "), ("Rouge score : ")] :=
  ⟨by decide, C6_two_labeled_sections preds target (by decide)⟩

/-- C7.  Every successful call returns the pair with the BLEU scalar first
and the ROUGE structure second. -/
theorem C7_returns_pair (pred target_ref : List PyVal) (rs : List RougeScores)
    (h : rougeGetScores (joinMapStr pred) (joinMapStr target_ref) = .ok rs) :
    (Evaluate_text pred target_ref).1 =
      .ok (bleuScore pred target_ref, rs) := by
  rw [Evaluate_text_ok _ _ _ h]

/-- Witness for C7 at the hardcoded input. -/
theorem C7_returns_pair_w :
    (Evaluate_text preds target).1 =
      .ok (bleuScore preds target,
        [⟨rougeN 1 (pySplit (joinMapStr preds)) (pySplit (joinMapStr target)),
          rougeN 2 (pySplit (joinMapStr preds)) (pySplit (joinMapStr target)),
          rougeLstat (pySplit (joinMapStr preds)) (pySplit (joinMapStr target))⟩]) :=
  C7_returns_pair preds target _ (rougeGetScores_ok_form _ _ (by decide))

/-- C2.  When the prediction equals the one and only reference, the BLEU
score is indeed `1`, but the ROUGE side of the returned pair does NOT carry
F1 `1`: line 8 joins `str` of the single element of the reference
collection — a list — so the ROUGE scorer compares the prediction against
the Python repr of that list, whose bracketed and quoted end tokens fail
to match, leaving a unigram F1 of `8/11`. -/
theorem C2_identical_single_reference :
    (Evaluate_text predsSame targetSame).1 =
      .ok (bleuScore predsSame targetSame,
        [⟨⟨8/11, 4/5, 2/3⟩, ⟨3/5, 3/5, 3/5⟩, ⟨2/3, 2/3, 2/3⟩⟩]) ∧
    bleuScore predsSame targetSame = 1 ∧
    ((8 : ℚ) / 11 ≠ 1) := by
  refine ⟨?_, ?_, by norm_num⟩
  · have h := rougeGetScores_ok_form (joinMapStr predsSame) (joinMapStr targetSame) (by decide)
    rw [rougeN_eval 1 _ _ 4 5 6 (by decide) (by decide) (by decide),
      rougeN_eval 2 _ _ 3 5 5 (by decide) (by decide) (by decide),
      rougeL_eval _ _ 4 6 6 (by decide) (by decide) (by decide)] at h
    have h1 : f1Of ((4 : ℚ) / 5) ((4 : ℚ) / 6) = 8/11 := by unfold f1Of; norm_num
    have h2 : f1Of ((3 : ℚ) / 5) ((3 : ℚ) / 5) = 3/5 := by unfold f1Of; norm_num
    have h3 : f1Of ((4 : ℚ) / 6) ((4 : ℚ) / 6) = 2/3 := by unfold f1Of; norm_num
    rw [Evaluate_text_ok predsSame targetSame _ h]
    push_cast
    rw [h1, h2, h3]
    norm_num
  · unfold bleuScore
    rw [if_neg (by decide)]
    have hp : bleuPrecs predsSame targetSame = [1, 1, 1, 1] := by
      unfold bleuPrecs
      rw [show List.range 4 = [0, 1, 2, 3] from rfl]
      simp only [List.map_cons, List.map_nil]
      rw [show numeratorN (0 + 1) (sentPairs predsSame targetSame) = 6 from by decide,
        show numeratorN (1 + 1) (sentPairs predsSame targetSame) = 5 from by decide,
        show numeratorN (2 + 1) (sentPairs predsSame targetSame) = 4 from by decide,
        show numeratorN (3 + 1) (sentPairs predsSame targetSame) = 3 from by decide,
        show denominatorN (0 + 1) (sentPairs predsSame targetSame) = 6 from by decide,
        show denominatorN (1 + 1) (sentPairs predsSame targetSame) = 5 from by decide,
        show denominatorN (2 + 1) (sentPairs predsSame targetSame) = 4 from by decide,
        show denominatorN (3 + 1) (sentPairs predsSame targetSame) = 3 from by decide]
      norm_num
    rw [hp, show (([1, 1, 1, 1] : List ℚ).map (Rat.cast : ℚ → ℝ)).prod = 1 from by simp,
      Real.one_rpow, mul_one]
    unfold brevity
    rw [if_neg (by decide),
      show refLenOf (sentPairs predsSame targetSame) = 6 from by decide,
      show predLenOf (sentPairs predsSame targetSame) = 6 from by decide]
    norm_num [Real.exp_zero]

/-- Corpus-level unigram numerator vanishes when no prediction token occurs
in any reference. -/
theorem clippedCount_one_zero (tp : List String) (refs : List (List String))
    (h : ∀ t ∈ tp, ∀ r ∈ refs, t ∉ r) : clippedCount 1 tp refs = 0 := by
  unfold clippedCount
  apply List.sum_eq_zero
  intro x hx
  obtain ⟨g, hg, rfl⟩ := List.mem_map.mp hx
  rw [ngrams_one] at hg
  obtain ⟨t, ht, rfl⟩ := List.mem_map.mp (List.mem_dedup.mp hg)
  have hmax : maxRefCount 1 refs [t] = 0 := by
    unfold maxRefCount
    apply foldr_max_zero
    intro x hx2
    obtain ⟨r, hr, rfl⟩ := List.mem_map.mp hx2
    rw [ngrams_one, List.count_eq_zero]
    intro hmem
    obtain ⟨u, hu, huv⟩ := List.mem_map.mp hmem
    simp only [List.cons.injEq, and_true] at huv
    subst huv
    exact h u ht r hr hu
  rw [hmax]
  simp

/-- C4.  If the prediction shares no token with any reference, the BLEU
score of the call is zero (the clipped unigram numerator vanishes). -/
theorem C4_disjoint_bleu_zero (p : String) (rs : List String)
    (h : ∀ t ∈ pySplit p, ∀ r ∈ rs, t ∉ pySplit r) :
    bleuScore [PyVal.str p] [PyVal.list (rs.map PyVal.str)] = 0 := by
  have h1 : numeratorN 1 (sentPairs [PyVal.str p] [PyVal.list (rs.map PyVal.str)]) = 0 := by
    unfold numeratorN
    apply List.sum_eq_zero
    intro x hx
    obtain ⟨pr, hpr, rfl⟩ := List.mem_map.mp hx
    simp only [sentPairs, List.zip_cons_cons, List.zip_nil_right, List.map_cons,
      List.map_nil, List.mem_singleton] at hpr
    subst hpr
    apply clippedCount_one_zero
    intro t ht r hr
    simp only [pyIter, List.map_map, List.mem_map, Function.comp] at hr
    obtain ⟨r0, hr0, rfl⟩ := hr
    exact h t ht r0 hr0
  unfold bleuScore
  rw [if_pos ?_]
  apply List.any_eq_true.mpr
  refine ⟨numeratorN 1 (sentPairs [PyVal.str p] [PyVal.list (rs.map PyVal.str)]), ?_, by
    simp [h1]⟩
  unfold bleuNums
  exact List.mem_map.mpr ⟨0, by simp, rfl⟩

/-- Witness for C4 at a concrete disjoint pair. -/
theorem C4_disjoint_bleu_zero_w :
    (∀ t ∈ pySplit ("aa bb"), ∀ r ∈ [("cc dd")], t ∉ pySplit r) ∧
    bleuScore [PyVal.str ("aa bb")] [PyVal.list ([("cc dd")].map PyVal.str)] = 0 :=
  ⟨by decide, C4_disjoint_bleu_zero ("aa bb") [("cc dd")] (by decide)⟩

/-- C8.  The module performs exactly one evaluation call, on the hardcoded
example; its whole observable trace is the trace of that call, and the run is a
total function of the statement list, so the program terminates whenever
the call does. -/
theorem C8_single_call_top_to_bottom :
    evalCallCount script = 1 ∧
    (runScript script [] []).2 = (Evaluate_text preds target).2 :=
  ⟨rfl, rfl⟩

/-- C9.  The ROUGE call is the first action of every call of
`Evaluate_text` — strictly before the BLEU call and any print — and when
the ROUGE scorer fails, the call returns that error with no further
action: no BLEU call, nothing printed. -/
theorem C9_rouge_before_bleu_and_prints (pred target_ref : List PyVal) :
    ∃ rest, (Evaluate_text pred target_ref).2 =
        .rougeCall (joinMapStr pred) (joinMapStr target_ref) :: rest ∧
      ∀ e, rougeGetScores (joinMapStr pred) (joinMapStr target_ref) = .error e →
        (Evaluate_text pred target_ref).1 = .error e ∧ rest = [] := by
  cases hE : rougeGetScores (joinMapStr pred) (joinMapStr target_ref) with
  | error e =>
    refine ⟨[], by rw [Evaluate_text_err _ _ _ hE], ?_⟩
    intro e2 he2
    simp only [Except.error.injEq] at he2
    subst he2
    exact ⟨by rw [Evaluate_text_err _ _ _ hE], rfl⟩
  | ok rs =>
    refine ⟨_, by rw [Evaluate_text_ok _ _ _ hE], ?_⟩
    intro e2 he2
    exact absurd he2 (by simp)

/-- Witness for C9 at an empty input, where the ROUGE call does fail. -/
theorem C9_rouge_before_bleu_and_prints_w :
    (Evaluate_text [PyVal.str ("")] [PyVal.str ("")]).2 =
      [.rougeCall ("") ("")] ∧
    (Evaluate_text [PyVal.str ("")] [PyVal.str ("")]).1 =
      .error ("Collections must contain at least 1 sentence.") := by
  obtain ⟨rest, h1, h2⟩ := C9_rouge_before_bleu_and_prints [PyVal.str ("")] [PyVal.str ("")]
  have h3 := h2 ("Collections must contain at least 1 sentence.") (by rfl)
  refine ⟨?_, h3.1⟩
  rw [h1, h3.2]
  rfl

/-- C10.  The call is deterministic: its return value and its whole trace
(hence its standard output) are a function of the two arguments alone. -/
theorem C10_deterministic (p1 t1 p2 t2 : List PyVal) (hp : p1 = p2) (ht : t1 = t2) :
    Evaluate_text p1 t1 = Evaluate_text p2 t2 := by
  rw [hp, ht]

/-- Witness for C10 at the hardcoded input. -/
theorem C10_deterministic_w : Evaluate_text preds target = Evaluate_text preds target :=
  C10_deterministic preds target preds target rfl rfl

end BleuRouge
